import Mathlib

/-!
Shallow embedding of the sync / cache / chat-stream core of the Zero webmail
agent (`apps/server/src/routes/chat.ts`) and of the mail-list hotkey handler
(`apps/mail/lib/hotkeys/mail-list-hotkeys.tsx`), together with theorems
settling the frozen claims about them.

Modelling conventions:
- JS `Map<string, T>` state is modelled as an association list / key list;
  `Map.delete` removes the key (on real maps keys are unique, so removal of
  every occurrence coincides with deletion of the single binding).
- A TS value of type `string | undefined | null` used in a truthiness test
  is modelled as `Option String`, with `truthy` reflecting the JS test
  (both `none` and `some ""` are falsy).
- `async`/`await` sequencing inside the single-threaded Durable Object is
  modelled as explicit state passing; thrown exceptions as `Except String`.
- The upstream mail driver is a parameter: `drvGet` models `driver.get`
  (wrapped in `getWithRetry`; retries are invisible at this level, the
  parameter is the final outcome), and the successive results of
  `listWithRetry` are given as a response trace `pages : List (Except ...)`
  consumed in call order.
- `new Date(x).toISOString()` is modelled by an uninterpreted parameter
  `normDate : String → String`; `JSON.stringify` of the sender object and of
  the tag-id array is modelled by carrying the already-serialised sender
  string and the id list itself (the SQL layer reads them back with
  `json_each`, so the round trip is the identity).
- Console logging and WebSocket broadcasts performed during sync are elided:
  they do not touch the state the claims quantify over, except in C7 where
  the broadcast sequence itself is the modelled output.
-/

/-- JS truthiness of a `string | undefined | null` value: `undefined`,
`null` and the empty string are falsy. -/
def truthy : Option String → Bool
  | none => false
  | some s => s ≠ ""

/-- A parsed message as stored in the thread blob; only the fields the
embedded code inspects are carried (`isDraft` is an optional boolean in TS). -/
structure PMsg where
  mid : String
  isDraft : Option Bool
deriving Repr, DecidableEq

/-- The `latest` summary of a thread as returned by the driver
(`IGetThreadResponse.latest`): sender (already serialised), receivedOn,
subject, and the ids of its tags. -/
structure Latest where
  sender : String
  receivedOn : String
  subject : String
  tags : List String
deriving Repr, DecidableEq

/-- Driver thread payload (`IGetThreadResponse`): the message list and the
optional latest summary. -/
structure ThreadData where
  messages : List PMsg
  latest : Option Latest
deriving Repr, DecidableEq

/-- A row of the `threads` SQLite table created in the `ZeroAgent`
constructor. `latest_label_ids` holds the JSON-encoded id array, modelled as
the id list itself. -/
structure ThreadRow where
  id : String
  thread_id : String
  provider_id : String
  latest_sender : Option String
  latest_received_on : Option String
  latest_subject : Option String
  latest_label_ids : List String
deriving Repr, DecidableEq

/-- The mutable `ZeroAgent` state the claims are about: the two single-flight
guard maps (`foldersInSync`, `syncThreadsInProgress`, value type is only ever
`true`, so the key list carries the whole map), the `threads` table, the
`THREADS_BUCKET` blob store and the agent name (bucket key prefix). -/
structure AgentState where
  foldersInSync : List String
  syncThreadsInProgress : List String
  threads : List ThreadRow
  bucket : List (String × ThreadData)
  name : String
deriving Repr, DecidableEq

/-- `getThreadKey` of `ZeroAgent`. -/
def getThreadKey (name threadId : String) : String :=
  name ++ "/" ++ threadId ++ ".json"

/-- `INSERT OR REPLACE INTO threads`: the row keyed by `row.id` is replaced,
or appended when absent. -/
def upsertRow (rows : List ThreadRow) (row : ThreadRow) : List ThreadRow :=
  if rows.any (fun r => r.id == row.id) then
    rows.map (fun r => if r.id == row.id then row else r)
  else rows ++ [row]

/-- `THREADS_BUCKET.put`: overwrite the blob under the key. -/
def bucketPut (b : List (String × ThreadData)) (key : String) (v : ThreadData) :
    List (String × ThreadData) :=
  (key, v) :: b.filter (fun p => p.1 ≠ key)

/-- `THREADS_BUCKET.get`: look up the blob under the key. -/
def bucketGet (b : List (String × ThreadData)) (key : String) : Option ThreadData :=
  (b.find? (fun p => p.1 == key)).map (·.2)

/-- Outcome of `syncThread` on the non-throwing paths: the guard skip
(returns `undefined`), the success object, or the no-latest-message skip. -/
inductive SyncThreadOutcome where
  | skipped
  | success (threadId : String)
  | noLatest (threadId : String)
deriving Repr, DecidableEq

/-- `ZeroAgent.syncThread` (chat.ts, lines 886-960), for an agent that has a
driver. If the thread id is already marked in `syncThreadsInProgress` it
returns immediately; otherwise it marks the id, fetches the thread
(`getWithRetry`, outcome given by `drvGet`), and on success writes the blob
and upserts the cache row; the guard entry is deleted on every exit path. -/
def syncThread (drvGet : String → Except String ThreadData)
    (normDate : String → String) (st : AgentState) (threadId : String) :
    Except String SyncThreadOutcome × AgentState :=
  if threadId ∈ st.syncThreadsInProgress then
    (.ok .skipped, st)
  else
    let st1 := { st with syncThreadsInProgress := threadId :: st.syncThreadsInProgress }
    let clear := fun (s : AgentState) =>
      { s with syncThreadsInProgress := s.syncThreadsInProgress.filter (fun x => x ≠ threadId) }
    match drvGet threadId with
    | .error e => (.error e, clear st1)
    | .ok threadData =>
      match threadData.latest with
      | some latest =>
        let normalizedReceivedOn := normDate latest.receivedOn
        let st2 := { st1 with
          bucket := bucketPut st1.bucket (getThreadKey st1.name threadId) threadData,
          threads := upsertRow st1.threads
            { id := threadId, thread_id := threadId, provider_id := "google",
              latest_sender := some latest.sender,
              latest_received_on := some normalizedReceivedOn,
              latest_subject := some latest.subject,
              latest_label_ids := latest.tags } }
        (.ok (.success threadId), clear st2)
      | none => (.ok (.noLatest threadId), clear st1)

/-- One page of `driver.list` results: thread summaries (only ids are used)
and the continuation token (`nextPageToken`, `null` modelled as `none`). -/
structure Page where
  threads : List String
  nextPageToken : Option String
deriving Repr, DecidableEq

/-- The inner `for (const thread of result.threads)` loop of `syncThreads`:
each `syncThread` call is wrapped in try/catch, so a per-thread failure is
dropped and the remaining threads are still processed. -/
def syncEach (drvGet : String → Except String ThreadData)
    (normDate : String → String) : List String → AgentState → AgentState
  | [], st => st
  | t :: ts, st => syncEach drvGet normDate ts (syncThread drvGet normDate st t).2

/-- The `while (hasMore)` loop of `syncThreads`. `pages` is the trace of
successive `listWithRetry` outcomes; the loop consumes one entry per
iteration, accumulates `totalSynced += result.threads.length`, and continues
iff `pageToken !== null && shouldLoop`. An exhausted trace while the loop
still wants a page is a model artifact reported as an error. -/
def syncLoop (drvGet : String → Except String ThreadData)
    (normDate : String → String) (shouldLoop : Bool) :
    List (Except String Page) → AgentState → Nat → Except String Nat × AgentState
  | [], st, _ => (.error "model: page trace exhausted", st)
  | p :: rest, st, total =>
    match p with
    | .error e => (.error e, st)
    | .ok page =>
      let st1 := syncEach drvGet normDate page.threads st
      let total1 := total + page.threads.length
      if page.nextPageToken ≠ none ∧ shouldLoop then
        syncLoop drvGet normDate shouldLoop rest st1 total1
      else (.ok total1, st1)

/-- Result object of `syncThreads`: `{ synced, message? }`. -/
structure SyncFolderResult where
  synced : Nat
  message : Option String
deriving Repr, DecidableEq

/-- `ZeroAgent.syncThreads` (chat.ts, lines 978-1049), for an agent that has
a driver. Guard skip when the folder is already in sync; early return when
the cached-row count has reached `maxCount` and the loop flag is off;
otherwise the folder is marked, the page loop runs, and the `finally` block
deletes the folder guard on every exit path. -/
def syncThreads (drvGet : String → Except String ThreadData)
    (normDate : String → String) (shouldLoop : Bool) (maxCount : Nat)
    (pages : List (Except String Page)) (st : AgentState) (folder : String) :
    Except String SyncFolderResult × AgentState :=
  if folder ∈ st.foldersInSync then
    (.ok { synced := 0, message := some "Sync already in progress" }, st)
  else if st.threads.length ≥ maxCount ∧ ¬shouldLoop then
    (.ok { synced := 0, message := some "Threads already synced" }, st)
  else
    let st1 := { st with foldersInSync := folder :: st.foldersInSync }
    let clear := fun (s : AgentState) =>
      { s with foldersInSync := s.foldersInSync.filter (fun x => x ≠ folder) }
    match syncLoop drvGet normDate shouldLoop pages st1 0 with
    | (.ok total, st2) => (.ok { synced := total, message := none }, clear st2)
    | (.error e, st2) => (.error e, clear st2)

/-- Strict lexicographic order on character lists (by code point), the
model of SQLite TEXT comparison. -/
def strLtL : List Char → List Char → Bool
  | _, [] => false
  | [], _ :: _ => true
  | a :: as, b :: bs =>
    if a.toNat < b.toNat then true
    else if b.toNat < a.toNat then false
    else strLtL as bs

/-- Strict lexicographic order on strings. -/
def strLt (a b : String) : Bool := strLtL a.toList b.toList

/-- Non-strict lexicographic order on character lists. -/
def strLeL : List Char → List Char → Bool
  | [], _ => true
  | _ :: _, [] => false
  | a :: as, b :: bs =>
    if a.toNat < b.toNat then true
    else if b.toNat < a.toNat then false
    else strLeL as bs

/-- Non-strict lexicographic order on strings. -/
def strLe (a b : String) : Bool := strLeL a.toList b.toList

/-- `strLeL` is total. -/
theorem strLeL_total : ∀ (a b : List Char), strLeL a b = true ∨ strLeL b a = true
  | [], _ => Or.inl rfl
  | _ :: _, [] => Or.inr rfl
  | x :: xs, y :: ys => by
    simp only [strLeL]
    rcases Nat.lt_trichotomy x.toNat y.toNat with h | h | h
    · left; simp [h]
    · have h1 : ¬x.toNat < y.toNat := by omega
      have h2 : ¬y.toNat < x.toNat := by omega
      rcases strLeL_total xs ys with ih | ih
      · left; simp [h1, h2, ih]
      · right; simp [h1, h2, ih]
    · right; simp [h]

/-- `strLeL` is transitive. -/
theorem strLeL_trans : ∀ {a b c : List Char}, strLeL a b = true →
    strLeL b c = true → strLeL a c = true
  | [], _, _, _, _ => rfl
  | _ :: _, [], _, h1, _ => by simp [strLeL] at h1
  | _ :: _, _ :: _, [], _, h2 => by simp [strLeL] at h2
  | x :: xs, y :: ys, z :: zs, h1, h2 => by
    simp only [strLeL] at h1 h2 ⊢
    by_cases hxy : x.toNat < y.toNat
    · by_cases hyz : y.toNat < z.toNat
      · have hxz : x.toNat < z.toNat := by omega
        simp [hxz]
      · by_cases hzy : z.toNat < y.toNat
        · simp [hyz, hzy] at h2
        · have hxz : x.toNat < z.toNat := by omega
          simp [hxz]
    · by_cases hyx : y.toNat < x.toNat
      · simp [hxy, hyx] at h1
      · by_cases hyz : y.toNat < z.toNat
        · have hxz : x.toNat < z.toNat := by omega
          simp [hxz]
        · by_cases hzy : z.toNat < y.toNat
          · simp [hyz, hzy] at h2
          · have hxz : ¬x.toNat < z.toNat := by omega
            have hzx : ¬z.toNat < x.toNat := by omega
            have e1 : strLeL xs ys = true := by simpa [hxy, hyx] using h1
            have e2 : strLeL ys zs = true := by simpa [hyz, hzy] using h2
            simpa [hxz, hzx] using strLeL_trans e1 e2

/-- SQL `latest_received_on < c` on a TEXT column: a NULL column value makes
the comparison NULL, which WHERE excludes; TEXT comparison is modelled by
the lexicographic string order. -/
def cursorLt (r : ThreadRow) (c : String) : Bool :=
  match r.latest_received_on with
  | none => false
  | some v => strLt v c

/-- SQL `EXISTS (SELECT 1 FROM json_each(latest_label_ids) WHERE value = l)`:
the label id occurs in the stored id array. A NULL comparand (the
`labelIds[0]` of an empty array, i.e. `undefined` bound as NULL) matches no
row. -/
def labelHas (r : ThreadRow) : Option String → Bool
  | none => false
  | some l => l ∈ r.latest_label_ids

/-- Descending comparison on the `latest_received_on` key used by
`ORDER BY latest_received_on DESC`: in SQLite NULLs order below every TEXT
value, hence come last in a descending sort. -/
def recvGe : Option String → Option String → Bool
  | _, none => true
  | none, some _ => false
  | some a, some b => strLe b a

/-- Insertion step of the descending sort on rows. -/
def insertDesc (r : ThreadRow) : List ThreadRow → List ThreadRow
  | [] => [r]
  | x :: xs =>
    if recvGe r.latest_received_on x.latest_received_on then r :: x :: xs
    else x :: insertDesc r xs

/-- `ORDER BY latest_received_on DESC` as an insertion sort. -/
def sortDesc : List ThreadRow → List ThreadRow
  | [] => []
  | x :: xs => insertDesc x (sortDesc xs)

/-- A `SELECT ... FROM threads WHERE <pred> ORDER BY latest_received_on DESC
LIMIT n` query, as executed by `getThreadsFromDB`. -/
def sqlQuery (rows : List ThreadRow) (pred : ThreadRow → Bool) (n : Nat) :
    List ThreadRow :=
  (sortDesc (rows.filter pred)).take n

/-- Parameters of `ZeroAgent.getThreadsFromDB` after destructuring
(`labelIds = []` and `maxResults = 50` are the source defaults, supplied by
the caller of the model). -/
structure ListParams where
  labelIds : List String
  folder : Option String
  q : Option String
  maxResults : Nat
  pageToken : Option String
deriving Repr, DecidableEq

/-- The row set selected by `ZeroAgent.getThreadsFromDB` (chat.ts, lines
1123-1282): the `whereConditions` array is built from the truthy parameters
(folder, labels, free text, cursor) and the executed statement is chosen by
the condition count and the source if/else chain. The
`condition.includes("latest_received_on <")` test of the single-condition
branch is modelled as "the cursor parameter is the one truthy condition"
(the literal occurring inside user-supplied folder/label/search text is not
modelled). The free-text condition is pushed but never interpolated into an
executed statement. -/
def getThreadsRows (rows : List ThreadRow) (p : ListParams) : List ThreadRow :=
  let hasFolder := truthy p.folder
  let hasLabels := decide (p.labelIds.length > 0)
  let hasQ := truthy p.q
  let hasCursor := truthy p.pageToken
  let condCount := (if hasFolder then 1 else 0) + (if hasLabels then 1 else 0)
    + (if hasQ then 1 else 0) + (if hasCursor then 1 else 0)
  if condCount = 0 then
    sqlQuery rows (fun _ => true) p.maxResults
  else if condCount = 1 then
    if hasCursor then
      sqlQuery rows (fun r => cursorLt r (p.pageToken.getD "")) p.maxResults
    else if hasFolder then
      sqlQuery rows (fun r => labelHas r (some ((p.folder.getD "").toUpper))) p.maxResults
    else
      sqlQuery rows (fun r => labelHas r p.labelIds.head?) p.maxResults
  else
    if hasFolder ∧ p.labelIds.length = 0 ∧ hasCursor then
      sqlQuery rows
        (fun r => labelHas r (some ((p.folder.getD "").toUpper))
          && cursorLt r (p.pageToken.getD "")) p.maxResults
    else if p.labelIds.length = 1 ∧ hasCursor ∧ ¬hasFolder then
      sqlQuery rows
        (fun r => labelHas r p.labelIds.head? && cursorLt r (p.pageToken.getD ""))
        p.maxResults
    else
      sqlQuery rows (fun r => cursorLt r (p.pageToken.getD "")) p.maxResults

/-- `ZeroAgent.getThreadsFromDB` output: the selected ids and the next
cursor (`latest_received_on` of the last selected row when the page is
full, else `null`; a NULL key also yields `null`). -/
def getThreadsFromDB (rows : List ThreadRow) (p : ListParams) :
    List String × Option String :=
  let res := getThreadsRows rows p
  let threads := res.map (·.id)
  let nextPageToken :=
    if threads.length = p.maxResults ∧ res.length > 0 then
      res.getLast?.bind (·.latest_received_on)
    else none
  (threads, nextPageToken)

/-- `findLast` of JS arrays: last element satisfying the predicate. -/
def findLastP (p : PMsg → Bool) (l : List PMsg) : Option PMsg :=
  l.reverse.find? p

/-- The `IGetThreadResponse` assembled by `getThreadFromDB` from a cache row
and the blob store. -/
structure ThreadResponse where
  messages : List PMsg
  latest : Option PMsg
  hasUnread : Bool
  totalReplies : Nat
  labels : List String
deriving Repr, DecidableEq

/-- Response construction of `getThreadFromDB` on a cache hit: blob messages
(empty when the blob is absent), latest non-draft message, unread flag and
labels from the row's stored label ids. -/
def buildThreadResponse (st : AgentState) (row : ThreadRow) : ThreadResponse :=
  let messages :=
    match bucketGet st.bucket (getThreadKey st.name row.id) with
    | some td => td.messages
    | none => []
  { messages := messages,
    latest := findLastP (fun e => e.isDraft ≠ some true) messages,
    hasUnread := "UNREAD" ∈ row.latest_label_ids,
    totalReplies := (messages.filter (fun e => e.isDraft ≠ some true)).length,
    labels := row.latest_label_ids }

/-- The row lookup `SELECT ... FROM threads WHERE id = ${id} LIMIT 1`. -/
def findRow (st : AgentState) (id : String) : Option ThreadRow :=
  st.threads.find? (fun r => r.id == id)

/-- `ZeroAgent.getThreadFromDB(id, true)` (chat.ts, lines 1284-1329), the
`lastAttempt` call: a miss now throws the not-found error without syncing.
The third component counts `syncThread` invocations (zero here). -/
def getThreadFromDBLast (st : AgentState) (id : String) :
    Except String ThreadResponse × AgentState × Nat :=
  match findRow st id with
  | none => (.error "Thread not found in database, Sync Failed once", st, 0)
  | some row => (.ok (buildThreadResponse st row), st, 0)

/-- `ZeroAgent.getThreadFromDB(id)` (chat.ts, lines 1284-1329), entry call
with `lastAttempt = false`: a hit is served from the cache and blob store; a
miss runs `syncThread(id)` once (a failure there is rethrown by the catch
block) and then recurses with `lastAttempt = true` — the one-step recursion
is unrolled into `getThreadFromDBLast`. The third component counts
`syncThread` invocations. -/
def getThreadFromDB (drvGet : String → Except String ThreadData)
    (normDate : String → String) (st : AgentState) (id : String) :
    Except String ThreadResponse × AgentState × Nat :=
  match findRow st id with
  | some row => (.ok (buildThreadResponse st row), st, 0)
  | none =>
    match syncThread drvGet normDate st id with
    | (.error e, st1) => (.error e, st1, 1)
    | (.ok _, st1) =>
      let (r, st2, n) := getThreadFromDBLast st1 id
      (r, st2, n + 1)

/-- The `cf_agent_use_chat_response` envelope broadcast by `reply`. -/
structure UseChatResponseMsg where
  id : String
  body : String
  done : Bool
deriving Repr, DecidableEq

/-- `ZeroAgent.reply` (chat.ts, lines 599-620): for each chunk of the
response body a `done:false` envelope carrying the decoded chunk is
broadcast, then a single terminal `done:true` envelope with empty body. The
returned list is the broadcast sequence in order. -/
def reply (id : String) (chunks : List String) : List UseChatResponseMsg :=
  chunks.map (fun body => { id := id, body := body, done := false })
    ++ [{ id := id, body := "", done := true }]

/-- The `chatMessageAbortControllers : Map<string, AbortController>` of
`ZeroAgent`, as an association list from request id to the aborted flag of
the stored controller. -/
def AbortMap := List (String × Bool)

/-- The key set of the pending-request map (`Map.has`). -/
def abortKeys (m : AbortMap) : List String := m.map (·.1)

/-- `ZeroAgent.getAbortSignal` (chat.ts, lines 454-465): create a fresh
(not yet aborted) controller for the id unless one is already present. -/
def getAbortSignal (m : AbortMap) (id : String) : AbortMap :=
  if id ∈ abortKeys m then m else (id, false) :: m

/-- `ZeroAgent.removeAbortController` (chat.ts, lines 470-472): delete the
map entry for the id. -/
def removeAbortController (m : AbortMap) (id : String) : AbortMap :=
  m.filter (fun p => p.1 ≠ id)

/-- `ZeroAgent.cancelChatRequest` (chat.ts, lines 478-483): when the id is
present, abort its controller (`AbortController.abort` is idempotent); the
entry itself is not removed. An absent id leaves the map untouched. -/
def cancelChatRequest (m : AbortMap) (id : String) : AbortMap :=
  if id ∈ abortKeys m then
    m.map (fun p => if p.1 = id then (p.1, true) else p)
  else m

/-- The mutation a `mail-list` hotkey handler fires (or the no-selection
toast). -/
inductive MailAction where
  | bulkArchiveCall (ids : List String)
  | markAsUnreadCall (ids : List String)
  | markAsReadCall (ids : List String)
  | noEmailsToast
deriving Repr, DecidableEq

/-- `archiveEmail` of `MailListHotkeys`
(mail-list-hotkeys.tsx, lines 127-154): a truthy hovered email id fires
`bulkArchive` on that single id; otherwise an empty bulk selection shows the
toast, and a non-empty one fires `markAsUnreadAction` on the selected ids. -/
def archiveEmail (hoveredEmailId : Option String) (bulkSelected : List String) :
    MailAction :=
  if truthy hoveredEmailId then
    .bulkArchiveCall [hoveredEmailId.getD ""]
  else if bulkSelected.length = 0 then
    .noEmailsToast
  else
    .markAsUnreadCall bulkSelected

/-- Prefix test on character lists. -/
def listIsPrefix : List Char → List Char → Bool
  | [], _ => true
  | _ :: _, [] => false
  | p :: ps, c :: cs => p == c && listIsPrefix ps cs

/-- Infix test on character lists. -/
def listIsInfix (pat : List Char) : List Char → Bool
  | [] => pat.isEmpty
  | c :: cs => listIsPrefix pat (c :: cs) || listIsInfix pat cs

/-- Substring containment on strings (character-list infix), used to state
the free-text match the spec describes for `listThreads`. -/
def strContains (s pat : String) : Bool :=
  listIsInfix pat.toList s.toList

/-- Modelled from the spec: the free-text subject/sender substring match the
spec attributes to `listThreads` ("free-text subject/sender substring
match"); the executed code never applies it, so this definition exists only
to compare the spec against `getThreadsRows`. A NULL column fails the
match. -/
def specQMatch (r : ThreadRow) (q : String) : Bool :=
  strContains ((r.latest_subject).getD "") q || strContains ((r.latest_sender).getD "") q

/-! ### Shared witness fixtures -/

/-- A concrete cached row used by witnesses. -/
def wRow : ThreadRow :=
  { id := "t1", thread_id := "t1", provider_id := "google",
    latest_sender := some "bob", latest_received_on := some "2024-01-02",
    latest_subject := some "hello", latest_label_ids := ["INBOX"] }

/-- A concrete agent state with both guards busy. -/
def wBusyState : AgentState :=
  { foldersInSync := ["inbox"], syncThreadsInProgress := ["t"],
    threads := [wRow], bucket := [], name := "u" }

/-- A concrete idle agent state holding one cached row. -/
def wIdleState : AgentState :=
  { foldersInSync := [], syncThreadsInProgress := [],
    threads := [wRow], bucket := [], name := "u" }

/-- A concrete driver that always returns a thread with a latest message. -/
def wDrv : String → Except String ThreadData := fun _ =>
  .ok { messages := [{ mid := "m1", isDraft := none }],
        latest := some { sender := "s", receivedOn := "2024-02-01",
                         subject := "x", tags := ["INBOX"] } }

/-- A concrete driver that always returns a thread without a latest
message (so a sync never inserts a row). -/
def wDrvEmpty : String → Except String ThreadData := fun _ =>
  .ok { messages := [], latest := none }

/-- The identity date normalisation used by witnesses. -/
def wId : String → String := fun s => s

/-! ### Guard helper lemmas -/

/-- Removing a key that is not in a list leaves the list unchanged. -/
theorem filter_ne_of_not_mem {l : List String} {t : String} (h : t ∉ l) :
    l.filter (fun x => x ≠ t) = l := by
  rw [List.filter_eq_self]
  intro a ha
  simp only [decide_eq_true_eq]
  exact fun hh => h (hh ▸ ha)

/-- A failed `syncThread` leaves the agent state exactly as it was: the
transient guard entry is removed again and nothing else was written. -/
theorem syncThread_error_state (drvGet : String → Except String ThreadData)
    (normDate : String → String) (st : AgentState) (t : String) {e : String}
    (h : drvGet t = .error e) :
    (syncThread drvGet normDate st t).2 = st := by
  by_cases hm : t ∈ st.syncThreadsInProgress
  · simp [syncThread, hm]
  · have hfil : st.syncThreadsInProgress.filter (fun x => !decide (x = t)) =
        st.syncThreadsInProgress := by
      rw [List.filter_eq_self]
      intro a ha
      simp only [Bool.not_eq_true', decide_eq_false_iff_not]
      exact fun hh => hm (hh ▸ ha)
    simp [syncThread, hm, h, hfil]

/-! ### C1: single-flight guards -/

/-- C1: for every key, at most one sync operation is active: a `syncThreads`
call for a folder already marked in `foldersInSync` — and likewise a
`syncThread` call for a thread id already marked in
`syncThreadsInProgress` — is a no-op that returns immediately with the state
unchanged, so no second sync is started. -/
theorem c1_single_flight (drvGet : String → Except String ThreadData)
    (normDate : String → String) (shouldLoop : Bool) (maxCount : Nat)
    (pages : List (Except String Page)) (st : AgentState) (folder tid : String) :
    (folder ∈ st.foldersInSync →
      syncThreads drvGet normDate shouldLoop maxCount pages st folder =
        (.ok { synced := 0, message := some "Sync already in progress" }, st)) ∧
    (tid ∈ st.syncThreadsInProgress →
      syncThread drvGet normDate st tid = (.ok .skipped, st)) := by
  constructor
  · intro h
    simp [syncThreads, h]
  · intro h
    simp [syncThread, h]

/-- Witness for C1 at a concrete busy state. -/
theorem c1_witness :
    syncThreads wDrv wId true 40 [] wBusyState "inbox" =
      (.ok { synced := 0, message := some "Sync already in progress" }, wBusyState) ∧
    syncThread wDrv wId wBusyState "t" = (.ok .skipped, wBusyState) := by
  have h := c1_single_flight wDrv wId true 40 [] wBusyState "inbox" "t"
  exact ⟨h.1 (by decide), h.2 (by decide)⟩

/-! ### C4: stopping conditions of syncThreads -/

/-- C4 counterexample: with the loop flag on, a cached-row count already at
`maxCount` does not make `syncThreads` return immediately with zero synced —
a page is fetched and its one thread counted. -/
theorem c4_counterexample :
    wIdleState.threads.length ≥ 1 ∧
    (syncThreads wDrv wId true 1 [.ok { threads := ["t9"], nextPageToken := none }]
        wIdleState "inbox").1 =
      .ok { synced := 1, message := none } := by
  exact ⟨by decide, rfl⟩

/-- C4 (amended): the threshold early-return with zero synced fires only
when the cached-row count threshold is met AND the loop-enable flag is
false; inside the loop, `syncThreads` returns without fetching another page
exactly when the continuation token is null or the loop-enable flag is
false (otherwise the next page of the trace is consumed). -/
theorem c4_stop_conditions (drvGet : String → Except String ThreadData)
    (normDate : String → String) (maxCount : Nat) (st st0 : AgentState)
    (folder : String) (pages rest : List (Except String Page)) (page : Page)
    (shouldLoop : Bool) (total : Nat) :
    (folder ∉ st.foldersInSync → st.threads.length ≥ maxCount →
      syncThreads drvGet normDate false maxCount pages st folder =
        (.ok { synced := 0, message := some "Threads already synced" }, st)) ∧
    (page.nextPageToken = none ∨ shouldLoop = false →
      syncLoop drvGet normDate shouldLoop (.ok page :: rest) st0 total =
        (.ok (total + page.threads.length),
          syncEach drvGet normDate page.threads st0)) ∧
    (page.nextPageToken ≠ none → shouldLoop = true →
      syncLoop drvGet normDate shouldLoop (.ok page :: rest) st0 total =
        syncLoop drvGet normDate shouldLoop rest
          (syncEach drvGet normDate page.threads st0)
          (total + page.threads.length)) := by
  refine ⟨?_, ?_, ?_⟩
  · intro hb hth
    simp [syncThreads, hb, hth]
  · intro h
    rcases h with h | h
    · simp [syncLoop, h]
    · simp [syncLoop, h]
  · intro h1 h2
    simp [syncLoop, h1, h2]

/-- Witness for C4 (amended) at concrete inputs. -/
theorem c4_witness :
    syncThreads wDrv wId false 1 [] wIdleState "inbox" =
      (.ok { synced := 0, message := some "Threads already synced" }, wIdleState) ∧
    syncLoop wDrv wId false [.ok { threads := [], nextPageToken := some "p" }]
        wIdleState 0 =
      (.ok 0, wIdleState) ∧
    syncLoop wDrv wId true
        [.ok { threads := [], nextPageToken := some "p" }, .error "boom"]
        wIdleState 0 =
      syncLoop wDrv wId true [.error "boom"] wIdleState 0 := by
  have h := c4_stop_conditions wDrv wId 1 wIdleState wIdleState "inbox" []
    [.error "boom"] { threads := [], nextPageToken := some "p" } false 0
  have h2 := c4_stop_conditions wDrv wId 1 wIdleState wIdleState "inbox" []
    [.error "boom"] { threads := [], nextPageToken := some "p" } true 0
  refine ⟨h.1 (by decide) (by decide), ?_, ?_⟩
  · have := h.2.1 (Or.inr rfl)
    simpa [syncEach] using this
  · have := h2.2.2 (by decide) rfl
    simpa [syncEach] using this

/-! ### C6: failure isolation in syncThreads -/

/-- C6: a failure while syncing a single thread of a page is dropped and the
remaining threads of the page are processed from an unchanged state, while a
page-level fetch failure makes `syncThreads` propagate the error after the
`finally` block has cleared the folder guard. -/
theorem c6_failure_isolation (drvGet : String → Except String ThreadData)
    (normDate : String → String) (shouldLoop : Bool) (maxCount : Nat)
    (st : AgentState) (folder t : String) (ts : List String) (e : String)
    (rest : List (Except String Page)) :
    (drvGet t = .error e →
      syncEach drvGet normDate (t :: ts) st = syncEach drvGet normDate ts st) ∧
    (folder ∉ st.foldersInSync → ¬(st.threads.length ≥ maxCount ∧ ¬shouldLoop) →
      (syncThreads drvGet normDate shouldLoop maxCount (.error e :: rest) st folder).1 =
        .error e ∧
      folder ∉
        (syncThreads drvGet normDate shouldLoop maxCount (.error e :: rest) st
          folder).2.foldersInSync) := by
  constructor
  · intro h
    show syncEach drvGet normDate ts (syncThread drvGet normDate st t).2 =
      syncEach drvGet normDate ts st
    rw [syncThread_error_state drvGet normDate st t h]
  · intro hb hth
    have hth2 : ¬(maxCount ≤ st.threads.length ∧ shouldLoop = false) := by
      simpa [Bool.not_eq_true] using hth
    constructor
    · simp [syncThreads, hb, hth2, syncLoop]
    · simp [syncThreads, hb, hth2, syncLoop, List.mem_filter]

/-- Witness for C6 at concrete inputs. -/
theorem c6_witness :
    syncEach (fun _ => .error "boom") wId ["t9", "t8"] wIdleState =
      syncEach (fun _ => .error "boom") wId ["t8"] wIdleState ∧
    (syncThreads wDrv wId true 40 [.error "boom"] wIdleState "inbox").1 =
      .error "boom" ∧
    "inbox" ∉
      (syncThreads wDrv wId true 40 [.error "boom"] wIdleState "inbox").2.foldersInSync := by
  have h1 := c6_failure_isolation (fun _ => .error "boom") wId true 40 wIdleState
    "inbox" "t9" ["t8"] "boom" []
  have h2 := c6_failure_isolation wDrv wId true 40 wIdleState "inbox" "t9" ["t8"]
    "boom" []
  exact ⟨h1.1 rfl, h2.2 (by decide) (by decide)⟩

/-! ### Ordering lemmas for the cache listing -/

/-- The descending-order relation between selected rows. -/
def rowGe (a b : ThreadRow) : Prop :=
  recvGe a.latest_received_on b.latest_received_on = true

/-- `recvGe` is total. -/
theorem recvGe_total (a b : Option String) : recvGe a b = true ∨ recvGe b a = true := by
  cases a with
  | none => cases b with
    | none => left; rfl
    | some y => right; rfl
  | some x => cases b with
    | none => left; rfl
    | some y =>
      simp only [recvGe, strLe]
      exact (strLeL_total y.toList x.toList).imp id id

/-- `recvGe` is transitive. -/
theorem recvGe_trans {a b c : Option String} (h1 : recvGe a b = true)
    (h2 : recvGe b c = true) : recvGe a c = true := by
  cases a <;> cases b <;> cases c <;> simp_all [recvGe, strLe]
  exact strLeL_trans h2 h1

/-- Membership through the insertion step. -/
theorem mem_insertDesc {r x : ThreadRow} {l : List ThreadRow} :
    x ∈ insertDesc r l ↔ x = r ∨ x ∈ l := by
  induction l with
  | nil => simp [insertDesc]
  | cons a as ih =>
    simp only [insertDesc]
    split
    · simp [List.mem_cons]
    · simp only [List.mem_cons, ih]
      tauto

/-- `sortDesc` permutes membership. -/
theorem mem_sortDesc {x : ThreadRow} {l : List ThreadRow} :
    x ∈ sortDesc l ↔ x ∈ l := by
  induction l with
  | nil => simp [sortDesc]
  | cons a as ih => simp [sortDesc, mem_insertDesc, ih]

/-- The insertion step preserves descending sortedness. -/
theorem pairwise_insertDesc {r : ThreadRow} {l : List ThreadRow}
    (h : l.Pairwise rowGe) : (insertDesc r l).Pairwise rowGe := by
  induction l with
  | nil => simp [insertDesc]
  | cons a as ih =>
    simp only [insertDesc]
    split
    · rename_i hge
      constructor
      · intro b hb
        rcases List.mem_cons.mp hb with rfl | hb
        · exact hge
        · exact recvGe_trans hge ((List.pairwise_cons.mp h).1 b hb)
      · exact h
    · rename_i hlt
      have hra : rowGe a r := by
        rcases recvGe_total r.latest_received_on a.latest_received_on with h1 | h1
        · exact absurd h1 hlt
        · exact h1
      have ha := (List.pairwise_cons.mp h).1
      have has := (List.pairwise_cons.mp h).2
      constructor
      · intro b hb
        rcases mem_insertDesc.mp hb with rfl | hb
        · exact hra
        · exact ha b hb
      · exact ih has

/-- The listing sort really sorts in descending `latest_received_on` order. -/
theorem pairwise_sortDesc (l : List ThreadRow) : (sortDesc l).Pairwise rowGe := by
  induction l with
  | nil => exact List.Pairwise.nil
  | cons a as ih => exact pairwise_insertDesc ih

/-- Every selected row of an executed statement satisfies its WHERE
predicate. -/
theorem mem_sqlQuery {rows : List ThreadRow} {pred : ThreadRow → Bool} {n : Nat}
    {r : ThreadRow} (h : r ∈ sqlQuery rows pred n) : pred r = true := by
  have h2 : r ∈ sortDesc (rows.filter pred) := (List.take_sublist n _).subset h
  exact (List.mem_filter.mp (mem_sortDesc.mp h2)).2

/-- Every executed statement returns its rows in descending
`latest_received_on` order. -/
theorem pairwise_sqlQuery (rows : List ThreadRow) (pred : ThreadRow → Bool)
    (n : Nat) : (sqlQuery rows pred n).Pairwise rowGe :=
  (pairwise_sortDesc (rows.filter pred)).sublist (List.take_sublist n _)


/-- Extract the cursor conjunct of a conjunctive WHERE predicate. -/
theorem and_cursor_right {a : Bool} {r : ThreadRow} {c : String}
    (h : (a && cursorLt r c) = true) : cursorLt r c = true := by
  simp only [Bool.and_eq_true] at h
  exact h.2

/-- Under a non-empty cursor, every statement `getThreadsFromDB` executes is
an `sqlQuery` whose WHERE predicate entails the strict cursor bound. -/
theorem getThreadsRows_cursor_shape (rows : List ThreadRow) (p : ListParams)
    (c : String) (hc : p.pageToken = some c) (hne : c ≠ "") :
    ∃ pred : ThreadRow → Bool,
      getThreadsRows rows p = sqlQuery rows pred p.maxResults ∧
      ∀ r, pred r = true → cursorLt r c = true := by
  have hcur : truthy (some c) = true := by simp [truthy, hne]
  by_cases hL0 : p.labelIds.length = 0
  · by_cases hF : truthy p.folder = true
    · refine ⟨fun r => labelHas r (some ((p.folder.getD "").toUpper)) && cursorLt r c,
        ?_, fun r h => and_cursor_right h⟩
      by_cases hQ : truthy p.q = true <;>
        simp [getThreadsRows, hc, hcur, hF, hQ, hL0]
    · refine ⟨fun r => cursorLt r c, ?_, fun r h => h⟩
      by_cases hQ : truthy p.q = true <;>
        simp [getThreadsRows, hc, hcur, hF, hQ, hL0]
  · have hpos : 0 < p.labelIds.length := Nat.pos_of_ne_zero hL0
    by_cases hL1 : p.labelIds.length = 1
    · by_cases hF : truthy p.folder = true
      · refine ⟨fun r => cursorLt r c, ?_, fun r h => h⟩
        by_cases hQ : truthy p.q = true <;>
          simp [getThreadsRows, hc, hcur, hF, hQ, hL0, hL1, hpos]
      · refine ⟨fun r => labelHas r p.labelIds.head? && cursorLt r c,
          ?_, fun r h => and_cursor_right h⟩
        by_cases hQ : truthy p.q = true <;>
          simp [getThreadsRows, hc, hcur, hF, hQ, hL0, hL1, hpos]
    · refine ⟨fun r => cursorLt r c, ?_, fun r h => h⟩
      by_cases hF : truthy p.folder = true <;>
        by_cases hQ : truthy p.q = true <;>
          simp [getThreadsRows, hc, hcur, hF, hQ, hL0, hL1, hpos]

/-! ### C2: cursor pagination of the cached listing -/

/-- C2: for every cached-listing call with a non-empty pagination cursor,
every selected row has `latest_received_on` strictly below the cursor, the
rows come back in descending `latest_received_on` order, and the returned
ids are exactly the projection of those rows. -/
theorem c2_cursor_pagination (rows : List ThreadRow) (p : ListParams)
    (c : String) (hc : p.pageToken = some c) (hne : c ≠ "") :
    (∀ r ∈ getThreadsRows rows p, cursorLt r c = true) ∧
    (getThreadsRows rows p).Pairwise rowGe ∧
    (getThreadsFromDB rows p).1 = (getThreadsRows rows p).map (·.id) := by
  obtain ⟨pred, heq, himp⟩ := getThreadsRows_cursor_shape rows p c hc hne
  refine ⟨?_, ?_, rfl⟩
  · intro r hr
    rw [heq] at hr
    exact himp r (mem_sqlQuery hr)
  · rw [heq]
    exact pairwise_sqlQuery rows pred p.maxResults

/-- Concrete cursor-only listing parameters used by witnesses. -/
def wCursorParams : ListParams :=
  { labelIds := [], folder := none, q := none, maxResults := 50,
    pageToken := some "2024-01-05" }

/-- Witness for C2 at a concrete table and cursor. -/
theorem c2_witness :
    (∀ r ∈ getThreadsRows [wRow] wCursorParams, cursorLt r "2024-01-05" = true) ∧
    (getThreadsRows [wRow] wCursorParams).Pairwise rowGe ∧
    (getThreadsFromDB [wRow] wCursorParams).1 =
      (getThreadsRows [wRow] wCursorParams).map (·.id) :=
  c2_cursor_pagination [wRow] wCursorParams "2024-01-05" rfl (by decide)

/-! ### C3: the free-text filter is never applied -/

/-- Concrete listing parameters with a free-text query and a cursor. -/
def wQueryParams : ListParams :=
  { labelIds := [], folder := none, q := some "zzz", maxResults := 50,
    pageToken := some "2025" }

/-- C3 counterexample: with query "zzz" and a cursor, the listing returns
the row whose subject is "hello" and sender "bob", which matches the
substring filter for neither — so the returned rows are not exactly those
also satisfying the free-text match. -/
theorem c3_counterexample :
    getThreadsRows [wRow] wQueryParams = [wRow] ∧
    specQMatch wRow "zzz" = false := by
  exact ⟨by decide, by decide⟩

/-- C3 (amended): the executed statement never contains the free-text
condition; whenever a non-empty cursor is present, the result with a
free-text query equals the result of the same call without it. -/
theorem c3_q_not_applied (rows : List ThreadRow) (labelIds : List String)
    (folder : Option String) (q : Option String) (n : Nat) (c : String)
    (hne : c ≠ "") :
    getThreadsRows rows { labelIds := labelIds, folder := folder, q := q,
                          maxResults := n, pageToken := some c } =
      getThreadsRows rows { labelIds := labelIds, folder := folder, q := none,
                            maxResults := n, pageToken := some c } := by
  have hcur : truthy (some c) = true := by simp [truthy, hne]
  have hnone : truthy none = false := rfl
  by_cases hL0 : labelIds.length = 0
  · by_cases hF : truthy folder = true <;>
      by_cases hQ : truthy q = true <;>
        simp [getThreadsRows, hcur, hnone, hF, hQ, hL0]
  · have hpos : 0 < labelIds.length := Nat.pos_of_ne_zero hL0
    by_cases hL1 : labelIds.length = 1 <;>
      by_cases hF : truthy folder = true <;>
        by_cases hQ : truthy q = true <;>
          simp [getThreadsRows, hcur, hnone, hF, hQ, hL0, hL1, hpos]

/-- Witness for C3 (amended) at the concrete counterexample input. -/
theorem c3_witness :
    getThreadsRows [wRow] { labelIds := [], folder := none, q := some "zzz",
                            maxResults := 50, pageToken := some "2025" } =
      getThreadsRows [wRow] { labelIds := [], folder := none, q := none,
                              maxResults := 50, pageToken := some "2025" } :=
  c3_q_not_applied [wRow] [] none (some "zzz") 50 "2025" (by decide)

/-! ### C5: cache miss triggers one sync then one retry -/

/-- C5: a cache hit on `getThreadFromDB` performs no sync; a cache miss
performs exactly one `syncThread` invocation; and when the retry read after
a completed sync still misses, the not-found error is raised instead of
syncing again. -/
theorem c5_miss_sync_retry (drvGet : String → Except String ThreadData)
    (normDate : String → String) (st : AgentState) (id : String) :
    (∀ row, findRow st id = some row →
      getThreadFromDB drvGet normDate st id =
        (.ok (buildThreadResponse st row), st, 0)) ∧
    (findRow st id = none → (getThreadFromDB drvGet normDate st id).2.2 = 1) ∧
    (findRow st id = none →
      ∀ o, (syncThread drvGet normDate st id).1 = .ok o →
      findRow (syncThread drvGet normDate st id).2 id = none →
      getThreadFromDB drvGet normDate st id =
        (.error "Thread not found in database, Sync Failed once",
          (syncThread drvGet normDate st id).2, 1)) := by
  refine ⟨?_, ?_, ?_⟩
  · intro row h
    simp [getThreadFromDB, h]
  · intro h
    simp only [getThreadFromDB, h]
    rcases hsync : syncThread drvGet normDate st id with ⟨res, st1⟩
    cases res with
    | error e => rfl
    | ok o =>
      rcases hfind : findRow st1 id with _ | row <;>
        simp [getThreadFromDBLast, hfind]
  · intro h o hok hmiss
    simp only [getThreadFromDB, h]
    rcases hsync : syncThread drvGet normDate st id with ⟨res, st1⟩
    rw [hsync] at hok hmiss
    cases res with
    | error e => simp at hok
    | ok oo =>
      simp only at hmiss
      simp [getThreadFromDBLast, hmiss]

/-- Witness for C5: a hit syncs nothing; a miss syncs once; a miss whose
sync leaves the cache unchanged ends in the not-found error. -/
theorem c5_witness :
    getThreadFromDB wDrvEmpty wId wIdleState "t1" =
      (.ok (buildThreadResponse wIdleState wRow), wIdleState, 0) ∧
    (getThreadFromDB wDrv wId wIdleState "t2").2.2 = 1 ∧
    getThreadFromDB wDrvEmpty wId wIdleState "t2" =
      (.error "Thread not found in database, Sync Failed once",
        (syncThread wDrvEmpty wId wIdleState "t2").2, 1) := by
  have h1 := c5_miss_sync_retry wDrvEmpty wId wIdleState "t1"
  have h2 := c5_miss_sync_retry wDrv wId wIdleState "t2"
  have h3 := c5_miss_sync_retry wDrvEmpty wId wIdleState "t2"
  exact ⟨h1.1 wRow (by decide), h2.2.1 (by decide),
    h3.2.2 (by decide) (.noLatest "t2") rfl (by decide)⟩

/-! ### C7: shape of a streamed chat response -/

/-- The `done:false` chunks contribute nothing to the `done` filter. -/
theorem filter_done_map_false (id : String) (chunks : List String) :
    ((chunks.map (fun body =>
        ({ id := id, body := body, done := false } : UseChatResponseMsg))).filter
      (fun m => m.done)).length = 0 := by
  induction chunks with
  | nil => rfl
  | cons a as ih => simp [List.filter_cons, ih]

/-- C7: the broadcast sequence for a streamed reply is the chunks, each in a
`done:false` envelope carrying that chunk as body, followed by exactly one
final `done:true` envelope with empty body. -/
theorem c7_stream_shape (id : String) (chunks : List String) :
    (reply id chunks).dropLast =
      chunks.map (fun body => { id := id, body := body, done := false }) ∧
    (reply id chunks).getLast? = some { id := id, body := "", done := true } ∧
    ((reply id chunks).filter (fun m => m.done)).length = 1 := by
  refine ⟨?_, ?_, ?_⟩
  · simp [reply]
  · simp [reply]
  · simp [reply, List.filter_append, filter_done_map_false, List.filter_cons]

/-! ### C8 / C9: the pending-chat-request map -/

/-- Aborting the controller stored under an id changes no keys of the
pending-request map. -/
theorem abortKeys_setTrue (m : AbortMap) (id : String) :
    abortKeys (m.map (fun p => if p.1 = id then (p.1, true) else p)) =
      abortKeys m := by
  induction m with
  | nil => rfl
  | cons a as ih =>
    by_cases h : a.1 = id <;> simp [abortKeys, h] <;>
      simpa [abortKeys] using ih

/-- `cancelChatRequest` changes no keys of the pending-request map. -/
theorem cancel_keys (m : AbortMap) (id : String) :
    abortKeys (cancelChatRequest m id) = abortKeys m := by
  by_cases h : id ∈ abortKeys m
  · simp [cancelChatRequest, h, abortKeys_setTrue]
  · simp [cancelChatRequest, h]

/-- C8: cancelling an unknown (or already completed, hence removed) request
id is a silent no-op, and cancelling the same id twice has the same effect
as cancelling it once. -/
theorem c8_cancel_idempotent (m : AbortMap) (id : String) :
    (id ∉ abortKeys m → cancelChatRequest m id = m) ∧
    cancelChatRequest (cancelChatRequest m id) id = cancelChatRequest m id := by
  constructor
  · intro h
    simp [cancelChatRequest, h]
  · by_cases h : id ∈ abortKeys m
    · have hinner : cancelChatRequest m id =
          m.map (fun p => if p.1 = id then (p.1, true) else p) := by
        simp [cancelChatRequest, h]
      have h2 : id ∈ abortKeys (cancelChatRequest m id) := by
        rw [cancel_keys]
        exact h
      rw [hinner] at h2 ⊢
      simp only [cancelChatRequest, h2, if_true]
      rw [List.map_map]
      apply List.map_congr_left
      intro p hp
      by_cases hh : p.1 = id <;> simp [Function.comp, hh]
    · have hno : cancelChatRequest m id = m := by
        simp [cancelChatRequest, h]
      rw [hno, hno]

/-- Witness for C8 at a concrete map. -/
theorem c8_witness :
    cancelChatRequest [("a", false)] "b" = [("a", false)] ∧
    cancelChatRequest (cancelChatRequest [("a", false)] "a") "a" =
      cancelChatRequest [("a", false)] "a" := by
  have h := c8_cancel_idempotent [("a", false)] "b"
  have h2 := c8_cancel_idempotent [("a", false)] "a"
  exact ⟨h.1 (by decide), h2.2⟩

/-- C9 counterexample: cancelling a pending id leaves its entry in the map —
the entry is not removed on explicit cancellation, contrary to the claim. -/
theorem c9_counterexample :
    abortKeys (cancelChatRequest [("a", false)] "a") = ["a"] := by decide

/-- C9 (amended): the pending-request entry for an id is created by the
first chat request for it (`getAbortSignal`, a no-op when already present)
and removed on completion (`removeAbortController`); explicit cancellation
aborts the stored controller but leaves the key set unchanged. -/
theorem c9_pending_map (m : AbortMap) (id : String) :
    id ∈ abortKeys (getAbortSignal m id) ∧
    (id ∈ abortKeys m → getAbortSignal m id = m) ∧
    id ∉ abortKeys (removeAbortController m id) ∧
    abortKeys (cancelChatRequest m id) = abortKeys m := by
  refine ⟨?_, ?_, ?_, cancel_keys m id⟩
  · by_cases h : id ∈ abortKeys m
    · simp [getAbortSignal, h]
    · have hnew : getAbortSignal m id = (id, false) :: m := by
        simp [getAbortSignal, h]
      rw [hnew]
      simp [abortKeys]
  · intro h
    simp [getAbortSignal, h]
  · intro hmem
    simp only [abortKeys, removeAbortController, List.mem_map] at hmem
    obtain ⟨p, hp, hpid⟩ := hmem
    have hpred := (List.mem_filter.mp hp).2
    simp [hpid] at hpred

/-- Witness for C9 (amended) at a concrete map. -/
theorem c9_witness :
    "a" ∈ abortKeys (getAbortSignal [] "a") ∧
    getAbortSignal [("a", false)] "a" = [("a", false)] ∧
    "a" ∉ abortKeys (removeAbortController [("a", false)] "a") ∧
    abortKeys (cancelChatRequest [("a", false)] "a") =
      abortKeys [("a", false)] := by
  have h1 := c9_pending_map [] "a"
  have h2 := c9_pending_map [("a", false)] "a"
  exact ⟨h1.1, h2.2.1 (by decide), h2.2.2.1, h2.2.2.2⟩

/-! ### C10: the archive hotkey in bulk-selection mode -/

/-- C10: with no hovered email and a non-empty bulk selection, the archive
hotkey fires the mark-as-unread mutation on the selected ids; the
bulk-archive mutation is only ever fired from the hovered-email path. -/
theorem c10_archive_hotkey (hoveredEmailId : Option String)
    (bulkSelected : List String) :
    (truthy hoveredEmailId = false → bulkSelected ≠ [] →
      archiveEmail hoveredEmailId bulkSelected = .markAsUnreadCall bulkSelected) ∧
    (∀ ids, archiveEmail hoveredEmailId bulkSelected = .bulkArchiveCall ids →
      truthy hoveredEmailId = true) := by
  constructor
  · intro h hne
    have hlen : ¬bulkSelected.length = 0 := by
      simpa [List.length_eq_zero] using hne
    simp [archiveEmail, h, hlen]
  · intro ids h
    by_cases ht : truthy hoveredEmailId = true
    · exact ht
    · exfalso
      have ht2 : truthy hoveredEmailId = false := by simpa using ht
      by_cases hl : bulkSelected.length = 0 <;>
        simp [archiveEmail, ht2, hl] at h

/-- Witness for C10 at a concrete selection. -/
theorem c10_witness :
    archiveEmail none ["x", "y"] = .markAsUnreadCall ["x", "y"] :=
  (c10_archive_hotkey none ["x", "y"]).1 rfl (by decide)
